import Mathlib

/-!
Verification development for the electron-vite documentation repository.

The repository ships a VitePress site configuration
(`packages/en-US/.vitepress/config.ts`) together with a guide page that
documents the `bytecodePlugin` source-protection pipeline of electron-vite.
The pipeline itself (Bundle Scanner, Arrow-Function Normalizer, Bytecode
Compiler Host, Loader Generator, Bundle Cleanup) is not implemented in this
repository; it is documented here and implemented upstream.  Definitions of
the pipeline below are therefore modelled from the specification text, while
the VitePress configuration values (navigation, search settings) are embedded
directly from `config.ts`.
-/

/-- Substring test on character lists: `hasInfix needle hay` is true exactly
when `needle` occurs contiguously inside `hay`.  This is the semantics of the
JavaScript `hay.includes(needle)` test used by the documented eligibility
check `id.includes(alias)`. -/
def hasInfix (needle : List Char) : List Char → Bool
  | [] => needle.isEmpty
  | c :: rest => needle.isPrefixOf (c :: rest) || hasInfix needle rest

/-- String-level inclusion test `id.includes(a)`: `a` occurs as a substring
of `id`. -/
def strIncludes (id a : String) : Bool :=
  hasInfix a.toList id.toList

/-- Modelled from the spec: a chunk of bundled output, with its identifier
and plain source text (§3 Chunk). -/
structure Chunk where
  id : String
  source : String
deriving DecidableEq

/-- Modelled from the spec: resolved `bytecodePlugin` configuration (§6):
`chunkAlias`, `transformArrowFunctions`, `removeBundleJS`. -/
structure BytecodeConfig where
  chunkAlias : List String
  transformArrowFunctions : Bool
  removeBundleJS : Bool
deriving DecidableEq

/-- Modelled from the spec: the raw option record handed to
`bytecodePlugin`, in which every option may be omitted (`none`). -/
structure BytecodeOptions where
  chunkAlias : Option (List String)
  transformArrowFunctions : Option Bool
  removeBundleJS : Option Bool

/-- Modelled from the spec: filling in the documented defaults for omitted
options — `chunkAlias` none/empty, `transformArrowFunctions` false,
`removeBundleJS` true (§6). -/
def resolveOptions (o : BytecodeOptions) : BytecodeConfig :=
  ⟨o.chunkAlias.getD [], o.transformArrowFunctions.getD false,
    o.removeBundleJS.getD true⟩

/-- Modelled from the spec: a chunk is eligible iff its identifier includes
some configured alias as a substring (§4.1, `id.includes(alias)`). -/
def isEligible (aliases : List String) (id : String) : Bool :=
  aliases.any (fun a => strIncludes id a)

/-- Modelled from the spec: the Bundle Scanner — a pure filter returning the
eligible subset of the output chunks (§4.1). -/
def bundleScanner (aliases : List String) (chunks : List Chunk) : List Chunk :=
  chunks.filter (fun c => isEligible aliases c.id)

theorem hasInfix_iff_infix (needle hay : List Char) :
    hasInfix needle hay = true ↔ needle <:+: hay := by
  induction hay with
  | nil =>
    simp [hasInfix, List.isEmpty_iff]
  | cons c rest ih =>
    simp [hasInfix, List.isPrefixOf_iff_prefix, ih, List.infix_cons_iff]

theorem strIncludes_iff (id a : String) :
    strIncludes id a = true ↔ a.toList <:+: id.toList := by
  simpa [strIncludes] using hasInfix_iff_infix a.toList id.toList

theorem isEligible_iff (aliases : List String) (id : String) :
    isEligible aliases id = true ↔ ∃ a ∈ aliases, a.toList <:+: id.toList := by
  simp [isEligible, List.any_eq_true, strIncludes_iff]

/-- Claim C1: the Bundle Scanner returns exactly the chunks whose identifier
contains some configured alias as a substring (the `id.includes(alias)`
inclusion test, not exact match only); it is a pure filter, returning a
sublist of its input with every kept chunk unmodified. -/
theorem scanner_returns_exactly_included_chunks
    (aliases : List String) (chunks : List Chunk) (c : Chunk) :
    (c ∈ bundleScanner aliases chunks ↔
      c ∈ chunks ∧ ∃ a ∈ aliases, a.toList <:+: c.id.toList)
    ∧ (bundleScanner aliases chunks).Sublist chunks := by
  refine ⟨?_, List.filter_sublist chunks⟩
  rw [bundleScanner, List.mem_filter, isEligible_iff]

/-- Claim C6: when every option is omitted, the resolved configuration has
`chunkAlias = []`, `transformArrowFunctions = false`, `removeBundleJS = true`,
and with the empty alias list no chunk identifier is eligible. -/
theorem bytecode_option_defaults (o : BytecodeOptions)
    (ha : o.chunkAlias = none) (ht : o.transformArrowFunctions = none)
    (hr : o.removeBundleJS = none) :
    (resolveOptions o).chunkAlias = []
    ∧ (resolveOptions o).transformArrowFunctions = false
    ∧ (resolveOptions o).removeBundleJS = true
    ∧ ∀ id, isEligible (resolveOptions o).chunkAlias id = false := by
  refine ⟨?_, ?_, ?_, ?_⟩ <;> simp [resolveOptions, ha, ht, hr, isEligible]

/-- Witness for C6 at the fully omitted option record. -/
theorem bytecode_option_defaults_witness :
    (resolveOptions ⟨none, none, none⟩).chunkAlias = []
    ∧ (resolveOptions ⟨none, none, none⟩).transformArrowFunctions = false
    ∧ (resolveOptions ⟨none, none, none⟩).removeBundleJS = true
    ∧ ∀ id, isEligible (resolveOptions ⟨none, none, none⟩).chunkAlias id = false :=
  bytecode_option_defaults ⟨none, none, none⟩ rfl rfl rfl

/-- Modelled from the spec: the on-disk files the pipeline touches, one
source bundle file, one bytecode artifact file and one loader shim file per
chunk identifier (§6 output artifacts). -/
inductive DiskPath where
  | src (id : String)
  | art (id : String)
  | shim (id : String)
deriving DecidableEq

/-- The chunk identifier a disk path belongs to. -/
def DiskPath.owner : DiskPath → String
  | DiskPath.src i => i
  | DiskPath.art i => i
  | DiskPath.shim i => i

/-- A file system: a map from disk paths to file contents. -/
abbrev FS := DiskPath → Option String

/-- Write (create or overwrite) a file. -/
def FS.write (fs : FS) (p : DiskPath) (content : String) : FS :=
  fun q => if q = p then some content else fs q

/-- Delete a file. -/
def FS.remove (fs : FS) (p : DiskPath) : FS :=
  fun q => if q = p then none else fs q

/-- Modelled from the spec: the observable file-system events of one pipeline
run, used to state the Cleanup ordering invariant (§4.5). -/
inductive Event where
  | wroteArtifact (id : String)
  | wroteShim (id : String)
  | deletedSource (id : String)
  | reportedChunkError (id : String)
deriving DecidableEq

/-- Modelled from the spec: process-level error taxonomy (§7); per-chunk
errors are reported as events instead. -/
inductive FatalError where
  | configurationError
  | hostStartupError
deriving DecidableEq

/-- Modelled from the spec: the Arrow-Function Normalizer (§4.2) — applies
the arrow-function rewrite `transform` only when the flag is set. -/
def normalizeSource (flag : Bool) (transform : String → String) (s : String) : String :=
  if flag then transform s else s

/-- Modelled from the spec: the loader shim source text emitted for a chunk
(§4.4); its content references the chunk it replaces. -/
def loaderCode (id : String) : String :=
  String.append "bytecode-loader:" id

/-- Modelled from the spec: processing of a single chunk (§4 state machine).
An ineligible chunk is untouched.  For an eligible chunk the normalized
source is compiled by the host (`compile`, `none` meaning the host reported
a compile failure or produced invalid cache data); a per-chunk write failure
(`ioFail`) is treated like a compile failure; on success the artifact and the
loader shim are written and, when `removeBundleJS` is set, the original
source bundle file is deleted afterwards. -/
def processChunk (cfg : BytecodeConfig) (transform : String → String)
    (compile : String → Option String) (ioFail : String → Bool)
    (c : Chunk) (fs : FS) : FS × List Event :=
  if isEligible cfg.chunkAlias c.id then
    match compile (normalizeSource cfg.transformArrowFunctions transform c.source) with
    | none => (fs, [Event.reportedChunkError c.id])
    | some bytecode =>
      if ioFail c.id then (fs, [Event.reportedChunkError c.id])
      else
        let fs1 := (fs.write (DiskPath.art c.id) bytecode).write
          (DiskPath.shim c.id) (loaderCode c.id)
        if cfg.removeBundleJS then
          (fs1.remove (DiskPath.src c.id),
            [Event.wroteArtifact c.id, Event.wroteShim c.id,
              Event.deletedSource c.id])
        else
          (fs1, [Event.wroteArtifact c.id, Event.wroteShim c.id])
  else (fs, [])

/-- Modelled from the spec: sequential processing of the chunk list, each
chunk an independent unit of work (§5), with the event trace concatenated. -/
def runChunks (cfg : BytecodeConfig) (transform : String → String)
    (compile : String → Option String) (ioFail : String → Bool) :
    List Chunk → FS → FS × List Event
  | [], fs => (fs, [])
  | c :: rest, fs =>
    let r := processChunk cfg transform compile ioFail c fs
    let rr := runChunks cfg transform compile ioFail rest r.1
    (rr.1, r.2 ++ rr.2)

/-- Result of a whole pipeline run: final file system, event trace, and the
fatal error, if any. -/
structure RunResult where
  fs : FS
  events : List Event
  fatal : Option FatalError

/-- Modelled from the spec: the whole pipeline run (§2, §7).  An invalid
configuration or a host-startup failure is fatal and aborts the batch before
any chunk is touched; otherwise every chunk is processed. -/
def runPipeline (cfg : BytecodeConfig) (configOk hostOk : Bool)
    (transform : String → String) (compile : String → Option String)
    (ioFail : String → Bool) (chunks : List Chunk) (fs : FS) : RunResult :=
  if configOk = false then ⟨fs, [], some FatalError.configurationError⟩
  else if hostOk = false then ⟨fs, [], some FatalError.hostStartupError⟩
  else
    let r := runChunks cfg transform compile ioFail chunks fs
    ⟨r.1, r.2, none⟩

theorem owner_ne_paths (p : DiskPath) (i : String) (h : ¬p.owner = i) :
    ¬p = DiskPath.src i ∧ ¬p = DiskPath.art i ∧ ¬p = DiskPath.shim i := by
  refine ⟨?_, ?_, ?_⟩ <;> rintro rfl <;> exact h rfl

theorem processChunk_frame (cfg : BytecodeConfig) (transform : String → String)
    (compile : String → Option String) (ioFail : String → Bool)
    (c : Chunk) (fs : FS) (p : DiskPath) (hp : ¬p.owner = c.id) :
    (processChunk cfg transform compile ioFail c fs).1 p = fs p := by
  obtain ⟨h1, h2, h3⟩ := owner_ne_paths p c.id hp
  unfold processChunk
  split
  · split
    · rfl
    · split
      · rfl
      · split <;> simp [FS.write, FS.remove, h1, h2, h3]
  · rfl

theorem processChunk_ineligible (cfg : BytecodeConfig)
    (transform : String → String) (compile : String → Option String)
    (ioFail : String → Bool) (c : Chunk) (fs : FS)
    (h : isEligible cfg.chunkAlias c.id = false) :
    processChunk cfg transform compile ioFail c fs = (fs, []) := by
  unfold processChunk
  simp [h]

theorem processChunk_chunkFail (cfg : BytecodeConfig)
    (transform : String → String) (compile : String → Option String)
    (ioFail : String → Bool) (c : Chunk) (fs : FS)
    (h : compile (normalizeSource cfg.transformArrowFunctions transform c.source) = none
      ∨ ioFail c.id = true) :
    (processChunk cfg transform compile ioFail c fs).1 = fs := by
  unfold processChunk
  split
  · rcases h with h | h <;> simp [h]
    split
    · rfl
    · simp_all
  · rfl

theorem runChunks_frame (cfg : BytecodeConfig) (transform : String → String)
    (compile : String → Option String) (ioFail : String → Bool)
    (l : List Chunk) (fs : FS) (p : DiskPath)
    (h : ∀ d ∈ l, ¬d.id = p.owner) :
    (runChunks cfg transform compile ioFail l fs).1 p = fs p := by
  induction l generalizing fs with
  | nil => rfl
  | cons c rest ih =>
    have hc : ¬p.owner = c.id := fun he => h c (by simp) he.symm
    simp only [runChunks]
    rw [ih _ fun d hd => h d (by simp [hd])]
    exact processChunk_frame cfg transform compile ioFail c fs p hc

theorem runChunks_append (cfg : BytecodeConfig) (transform : String → String)
    (compile : String → Option String) (ioFail : String → Bool)
    (l₁ l₂ : List Chunk) (fs : FS) :
    (runChunks cfg transform compile ioFail (l₁ ++ l₂) fs).1
      = (runChunks cfg transform compile ioFail l₂
          (runChunks cfg transform compile ioFail l₁ fs).1).1 := by
  induction l₁ generalizing fs with
  | nil => rfl
  | cons c rest ih => simp only [List.cons_append, runChunks, List.append_eq, ih]

theorem runChunks_cons (cfg : BytecodeConfig) (transform : String → String)
    (compile : String → Option String) (ioFail : String → Bool)
    (c : Chunk) (rest : List Chunk) (fs : FS) :
    (runChunks cfg transform compile ioFail (c :: rest) fs).1
      = (runChunks cfg transform compile ioFail rest
          (processChunk cfg transform compile ioFail c fs).1).1 := rfl

theorem runPipeline_ok (cfg : BytecodeConfig) (transform : String → String)
    (compile : String → Option String) (ioFail : String → Bool)
    (chunks : List Chunk) (fs : FS) :
    runPipeline cfg true true transform compile ioFail chunks fs
      = ⟨(runChunks cfg transform compile ioFail chunks fs).1,
          (runChunks cfg transform compile ioFail chunks fs).2, none⟩ := by
  simp [runPipeline]

theorem runPipeline_fatal (cfg : BytecodeConfig) (configOk hostOk : Bool)
    (transform : String → String) (compile : String → Option String)
    (ioFail : String → Bool) (chunks : List Chunk) (fs : FS)
    (h : configOk = false ∨ hostOk = false) :
    (runPipeline cfg configOk hostOk transform compile ioFail chunks fs).fs = fs
    ∧ (runPipeline cfg configOk hostOk transform compile ioFail chunks fs).events = []
    ∧ ¬(runPipeline cfg configOk hostOk transform compile ioFail chunks fs).fatal
        = none := by
  rcases h with h | h
  · subst h
    simp [runPipeline]
  · subst h
    cases configOk <;> simp [runPipeline]

theorem processChunk_success (cfg : BytecodeConfig) (transform : String → String)
    (compile : String → Option String) (ioFail : String → Bool)
    (c : Chunk) (fs : FS) (bytecode : String)
    (helig : isEligible cfg.chunkAlias c.id = true)
    (hcomp : compile (normalizeSource cfg.transformArrowFunctions transform c.source)
      = some bytecode)
    (hio : ioFail c.id = false) :
    (processChunk cfg transform compile ioFail c fs).1 (DiskPath.art c.id)
        = some bytecode
    ∧ (processChunk cfg transform compile ioFail c fs).1 (DiskPath.shim c.id)
        = some (loaderCode c.id)
    ∧ (processChunk cfg transform compile ioFail c fs).1 (DiskPath.src c.id)
        = if cfg.removeBundleJS then none else fs (DiskPath.src c.id) := by
  unfold processChunk
  rw [helig, hcomp, hio]
  simp only [if_true, Bool.false_eq_true, if_false]
  split <;> simp [FS.write, FS.remove]

theorem runChunks_ineligible_frame (cfg : BytecodeConfig)
    (transform : String → String) (compile : String → Option String)
    (ioFail : String → Bool) (l : List Chunk) (fs : FS) (p : DiskPath)
    (h : isEligible cfg.chunkAlias p.owner = false) :
    (runChunks cfg transform compile ioFail l fs).1 p = fs p := by
  induction l generalizing fs with
  | nil => rfl
  | cons c rest ih =>
    rw [runChunks_cons, ih]
    by_cases hc : c.id = p.owner
    · rw [processChunk_ineligible cfg transform compile ioFail c fs (hc ▸ h)]
    · exact processChunk_frame cfg transform compile ioFail c fs p
        (fun he => hc he.symm)

/-- Claim C3: a chunk whose identifier matches no configured alias is left
byte-for-byte unmodified by the pipeline: every disk path belonging to that
identifier (source bundle, artifact, shim) holds exactly what it held before
the run — in particular no artifact and no shim is produced for it. -/
theorem ineligible_chunk_untouched (cfg : BytecodeConfig)
    (configOk hostOk : Bool) (transform : String → String)
    (compile : String → Option String) (ioFail : String → Bool)
    (chunks : List Chunk) (fs : FS) (c : Chunk) (p : DiskPath)
    (hc : isEligible cfg.chunkAlias c.id = false) (hp : p.owner = c.id) :
    (runPipeline cfg configOk hostOk transform compile ioFail chunks fs).fs p
      = fs p := by
  cases configOk with
  | false =>
    rw [(runPipeline_fatal cfg false hostOk transform compile ioFail chunks fs
      (Or.inl rfl)).1]
  | true =>
    cases hostOk with
    | false =>
      rw [(runPipeline_fatal cfg true false transform compile ioFail chunks fs
        (Or.inr rfl)).1]
    | true =>
      rw [runPipeline_ok]
      exact runChunks_ineligible_frame cfg transform compile ioFail chunks fs p
        (hp ▸ hc)

/-- Witness for C3: with alias list `["foo"]`, chunk `"other"` is ineligible
and all three of its disk paths are unchanged by a run over it. -/
theorem ineligible_chunk_untouched_witness :
    (runPipeline ⟨["foo"], false, true⟩ true true (fun s => s)
        (fun _ => some "B") (fun _ => false) [⟨"other", "SO"⟩]
        (fun p => if p = DiskPath.src "other" then some "SO" else none)).fs
      (DiskPath.src "other")
      = (fun p => if p = DiskPath.src "other" then some "SO" else none :
          FS) (DiskPath.src "other") :=
  ineligible_chunk_untouched ⟨["foo"], false, true⟩ true true (fun s => s)
    (fun _ => some "B") (fun _ => false) [⟨"other", "SO"⟩]
    (fun p => if p = DiskPath.src "other" then some "SO" else none)
    ⟨"other", "SO"⟩ (DiskPath.src "other") (by decide) rfl

/-- Claim C2: for an eligible chunk whose compilation succeeds (and whose
per-chunk writes succeed), after the run the bytecode artifact file and the
loader shim file for that chunk both exist, and the original plain-source
bundle file still exists if and only if retention is requested
(`removeBundleJS = false`), in which case it is unchanged alongside them. -/
theorem eligible_success_artifacts (cfg : BytecodeConfig)
    (transform : String → String) (compile : String → Option String)
    (ioFail : String → Bool) (l₁ l₂ : List Chunk) (c : Chunk) (fs : FS)
    (bytecode : String)
    (helig : isEligible cfg.chunkAlias c.id = true)
    (hcomp : compile (normalizeSource cfg.transformArrowFunctions transform c.source)
      = some bytecode)
    (hio : ioFail c.id = false)
    (hsrc : fs (DiskPath.src c.id) = some c.source)
    (hothers : ∀ d ∈ l₁ ++ l₂, ¬d.id = c.id) :
    (runPipeline cfg true true transform compile ioFail (l₁ ++ c :: l₂) fs).fs
        (DiskPath.art c.id) = some bytecode
    ∧ (runPipeline cfg true true transform compile ioFail (l₁ ++ c :: l₂) fs).fs
        (DiskPath.shim c.id) = some (loaderCode c.id)
    ∧ (¬(runPipeline cfg true true transform compile ioFail (l₁ ++ c :: l₂) fs).fs
          (DiskPath.src c.id) = none ↔ cfg.removeBundleJS = false)
    ∧ (cfg.removeBundleJS = false →
        (runPipeline cfg true true transform compile ioFail (l₁ ++ c :: l₂) fs).fs
          (DiskPath.src c.id) = some c.source) := by
  have hl₁ : ∀ d ∈ l₁, ¬d.id = c.id := fun d hd => hothers d (by simp [hd])
  have hl₂ : ∀ d ∈ l₂, ¬d.id = c.id := fun d hd => hothers d (by simp [hd])
  have key : ∀ p : DiskPath, p.owner = c.id →
      (runPipeline cfg true true transform compile ioFail (l₁ ++ c :: l₂) fs).fs p
        = (processChunk cfg transform compile ioFail c
            (runChunks cfg transform compile ioFail l₁ fs).1).1 p := by
    intro p hp
    rw [runPipeline_ok]
    show (runChunks cfg transform compile ioFail (l₁ ++ c :: l₂) fs).1 p = _
    rw [runChunks_append, runChunks_cons]
    exact runChunks_frame cfg transform compile ioFail l₂ _ p
      (fun d hd => hp ▸ hl₂ d hd)
  have hfs₁ : (runChunks cfg transform compile ioFail l₁ fs).1 (DiskPath.src c.id)
      = some c.source := by
    rw [runChunks_frame cfg transform compile ioFail l₁ fs (DiskPath.src c.id)
      (fun d hd => hl₁ d hd), hsrc]
  obtain ⟨hart, hshim, hsrcv⟩ := processChunk_success cfg transform compile ioFail
    c (runChunks cfg transform compile ioFail l₁ fs).1 bytecode helig hcomp hio
  refine ⟨?_, ?_, ?_, ?_⟩
  · rw [key (DiskPath.art c.id) rfl, hart]
  · rw [key (DiskPath.shim c.id) rfl, hshim]
  · rw [key (DiskPath.src c.id) rfl, hsrcv]
    cases hrm : cfg.removeBundleJS <;> simp [hfs₁]
  · intro hrm
    rw [key (DiskPath.src c.id) rfl, hsrcv, hrm, hfs₁]
    simp

/-- Witness for C2: a single eligible chunk `"foo"` whose compilation
succeeds, with the default `removeBundleJS = true`. -/
theorem eligible_success_artifacts_witness :
    (runPipeline ⟨["foo"], false, true⟩ true true (fun s => s)
        (fun _ => some "B") (fun _ => false) ([] ++ ⟨"foo", "S"⟩ :: [])
        (fun p => if p = DiskPath.src "foo" then some "S" else none)).fs
      (DiskPath.art "foo") = some "B"
    ∧ (runPipeline ⟨["foo"], false, true⟩ true true (fun s => s)
        (fun _ => some "B") (fun _ => false) ([] ++ ⟨"foo", "S"⟩ :: [])
        (fun p => if p = DiskPath.src "foo" then some "S" else none)).fs
      (DiskPath.shim "foo") = some (loaderCode "foo")
    ∧ (¬(runPipeline ⟨["foo"], false, true⟩ true true (fun s => s)
        (fun _ => some "B") (fun _ => false) ([] ++ ⟨"foo", "S"⟩ :: [])
        (fun p => if p = DiskPath.src "foo" then some "S" else none)).fs
      (DiskPath.src "foo") = none
        ↔ (⟨["foo"], false, true⟩ : BytecodeConfig).removeBundleJS = false)
    ∧ ((⟨["foo"], false, true⟩ : BytecodeConfig).removeBundleJS = false →
      (runPipeline ⟨["foo"], false, true⟩ true true (fun s => s)
        (fun _ => some "B") (fun _ => false) ([] ++ ⟨"foo", "S"⟩ :: [])
        (fun p => if p = DiskPath.src "foo" then some "S" else none)).fs
      (DiskPath.src "foo") = some "S") :=
  eligible_success_artifacts ⟨["foo"], false, true⟩ (fun s => s)
    (fun _ => some "B") (fun _ => false) [] [] ⟨"foo", "S"⟩
    (fun p => if p = DiskPath.src "foo" then some "S" else none) "B"
    (by decide) rfl rfl (by decide) (by simp)

/-- Claim C4: an error local to one chunk (compile failure or per-chunk IO
failure) never fails the batch — the final file system is the same as for a
run without the failing chunk, and the failing chunk's own files (source,
artifact, shim) are exactly as before the run, so no partial artifact
remains — while a process-level error (configuration or host startup) fails
the whole batch immediately, leaving the file system untouched and the event
trace empty, so no Cleanup deletion has occurred. -/
theorem chunk_errors_are_contained (cfg : BytecodeConfig)
    (transform : String → String) (compile : String → Option String)
    (ioFail : String → Bool) (l₁ l₂ : List Chunk) (c : Chunk) (fs : FS)
    (hfail : compile (normalizeSource cfg.transformArrowFunctions transform c.source)
        = none
      ∨ ioFail c.id = true)
    (hothers : ∀ d ∈ l₁ ++ l₂, ¬d.id = c.id) :
    (runPipeline cfg true true transform compile ioFail (l₁ ++ c :: l₂) fs).fs
        = (runPipeline cfg true true transform compile ioFail (l₁ ++ l₂) fs).fs
    ∧ (∀ p : DiskPath, p.owner = c.id →
        (runPipeline cfg true true transform compile ioFail (l₁ ++ c :: l₂) fs).fs p
          = fs p)
    ∧ (∀ configOk hostOk : Bool, configOk = false ∨ hostOk = false →
        (runPipeline cfg configOk hostOk transform compile ioFail
            (l₁ ++ c :: l₂) fs).fs = fs
        ∧ (runPipeline cfg configOk hostOk transform compile ioFail
            (l₁ ++ c :: l₂) fs).events = []
        ∧ ¬(runPipeline cfg configOk hostOk transform compile ioFail
            (l₁ ++ c :: l₂) fs).fatal = none) := by
  have hl₁ : ∀ d ∈ l₁, ¬d.id = c.id := fun d hd => hothers d (by simp [hd])
  have hl₂ : ∀ d ∈ l₂, ¬d.id = c.id := fun d hd => hothers d (by simp [hd])
  refine ⟨?_, ?_, ?_⟩
  · rw [runPipeline_ok, runPipeline_ok]
    show (runChunks cfg transform compile ioFail (l₁ ++ c :: l₂) fs).1
      = (runChunks cfg transform compile ioFail (l₁ ++ l₂) fs).1
    rw [runChunks_append, runChunks_append, runChunks_cons,
      processChunk_chunkFail cfg transform compile ioFail c _ hfail]
  · intro p hp
    rw [runPipeline_ok]
    show (runChunks cfg transform compile ioFail (l₁ ++ c :: l₂) fs).1 p = fs p
    rw [runChunks_append, runChunks_cons,
      processChunk_chunkFail cfg transform compile ioFail c _ hfail,
      runChunks_frame cfg transform compile ioFail l₂ _ p
        (fun d hd => hp ▸ hl₂ d hd),
      runChunks_frame cfg transform compile ioFail l₁ fs p
        (fun d hd => hp ▸ hl₁ d hd)]
  · intro configOk hostOk h
    exact runPipeline_fatal cfg configOk hostOk transform compile ioFail
      (l₁ ++ c :: l₂) fs h

/-- Witness for C4: chunk `"foo"` fails to compile while `"bar"` is also in
the batch; the run equals the run without `"foo"`, `"foo"`'s files are
untouched, and a host-startup failure aborts with nothing changed. -/
theorem chunk_errors_are_contained_witness :
    (runPipeline ⟨["foo", "bar"], false, true⟩ true true (fun s => s)
        (fun s => if s = "SF" then none else some "B") (fun _ => false)
        ([] ++ ⟨"foo", "SF"⟩ :: [⟨"bar", "SB"⟩])
        (fun _ => none)).fs
      = (runPipeline ⟨["foo", "bar"], false, true⟩ true true (fun s => s)
        (fun s => if s = "SF" then none else some "B") (fun _ => false)
        ([] ++ [⟨"bar", "SB"⟩]) (fun _ => none)).fs
    ∧ (∀ p : DiskPath, p.owner = (Chunk.mk "foo" "SF").id →
        (runPipeline ⟨["foo", "bar"], false, true⟩ true true (fun s => s)
          (fun s => if s = "SF" then none else some "B") (fun _ => false)
          ([] ++ ⟨"foo", "SF"⟩ :: [⟨"bar", "SB"⟩]) (fun _ => none)).fs p
          = (fun _ => none : FS) p)
    ∧ (∀ configOk hostOk : Bool, configOk = false ∨ hostOk = false →
        (runPipeline ⟨["foo", "bar"], false, true⟩ configOk hostOk (fun s => s)
          (fun s => if s = "SF" then none else some "B") (fun _ => false)
          ([] ++ ⟨"foo", "SF"⟩ :: [⟨"bar", "SB"⟩]) (fun _ => none)).fs
          = (fun _ => none : FS)
        ∧ (runPipeline ⟨["foo", "bar"], false, true⟩ configOk hostOk (fun s => s)
          (fun s => if s = "SF" then none else some "B") (fun _ => false)
          ([] ++ ⟨"foo", "SF"⟩ :: [⟨"bar", "SB"⟩]) (fun _ => none)).events = []
        ∧ ¬(runPipeline ⟨["foo", "bar"], false, true⟩ configOk hostOk (fun s => s)
          (fun s => if s = "SF" then none else some "B") (fun _ => false)
          ([] ++ ⟨"foo", "SF"⟩ :: [⟨"bar", "SB"⟩]) (fun _ => none)).fatal
          = none) :=
  chunk_errors_are_contained ⟨["foo", "bar"], false, true⟩ (fun s => s)
    (fun s => if s = "SF" then none else some "B") (fun _ => false)
    [] [⟨"bar", "SB"⟩] ⟨"foo", "SF"⟩ (fun _ => none)
    (Or.inl (by decide)) (by decide)

/-- The Cleanup ordering invariant over an event trace: every source-file
deletion for a chunk is preceded, strictly earlier in the trace, by the
successful shim write and the successful artifact write for that chunk. -/
def delOrdered (evs : List Event) : Prop :=
  ∀ (id : String) (i : Nat), evs[i]? = some (Event.deletedSource id) →
    (∃ j, j < i ∧ evs[j]? = some (Event.wroteShim id))
    ∧ (∃ k, k < i ∧ evs[k]? = some (Event.wroteArtifact id))

theorem delOrdered_nil : delOrdered [] := by
  intro id i hi
  simp at hi

theorem delOrdered_append {xs ys : List Event} (h1 : delOrdered xs)
    (h2 : delOrdered ys) : delOrdered (xs ++ ys) := by
  intro id i hi
  by_cases hlt : i < xs.length
  · rw [List.getElem?_append, if_pos hlt] at hi
    obtain ⟨⟨j, hj, hjv⟩, ⟨k, hk, hkv⟩⟩ := h1 id i hi
    refine ⟨⟨j, hj, ?_⟩, ⟨k, hk, ?_⟩⟩
    · rw [List.getElem?_append, if_pos (by omega)]
      exact hjv
    · rw [List.getElem?_append, if_pos (by omega)]
      exact hkv
  · rw [List.getElem?_append_right (by omega)] at hi
    obtain ⟨⟨j, hj, hjv⟩, ⟨k, hk, hkv⟩⟩ := h2 id (i - xs.length) hi
    refine ⟨⟨xs.length + j, by omega, ?_⟩, ⟨xs.length + k, by omega, ?_⟩⟩
    · rw [List.getElem?_append_right (by omega)]
      simpa using hjv
    · rw [List.getElem?_append_right (by omega)]
      simpa using hkv

theorem delOrdered_reported (cid : String) :
    delOrdered [Event.reportedChunkError cid] := by
  intro id i hi
  match i with
  | 0 => simp at hi
  | n + 1 => simp at hi

theorem delOrdered_keep (cid : String) :
    delOrdered [Event.wroteArtifact cid, Event.wroteShim cid] := by
  intro id i hi
  match i with
  | 0 => simp at hi
  | 1 => simp at hi
  | n + 2 => simp at hi

theorem delOrdered_removeBlock (cid : String) :
    delOrdered [Event.wroteArtifact cid, Event.wroteShim cid,
      Event.deletedSource cid] := by
  intro id i hi
  match i with
  | 0 => simp at hi
  | 1 => simp at hi
  | 2 =>
    simp at hi
    subst hi
    exact ⟨⟨1, by omega, by simp⟩, ⟨0, by omega, by simp⟩⟩
  | n + 3 => simp at hi

theorem processChunk_delOrdered (cfg : BytecodeConfig)
    (transform : String → String) (compile : String → Option String)
    (ioFail : String → Bool) (c : Chunk) (fs : FS) :
    delOrdered (processChunk cfg transform compile ioFail c fs).2 := by
  unfold processChunk
  split
  · split
    · exact delOrdered_reported c.id
    · split
      · exact delOrdered_reported c.id
      · split
        · exact delOrdered_removeBlock c.id
        · exact delOrdered_keep c.id
  · exact delOrdered_nil

theorem runChunks_delOrdered (cfg : BytecodeConfig)
    (transform : String → String) (compile : String → Option String)
    (ioFail : String → Bool) (l : List Chunk) (fs : FS) :
    delOrdered (runChunks cfg transform compile ioFail l fs).2 := by
  induction l generalizing fs with
  | nil => exact delOrdered_nil
  | cons c rest ih =>
    show delOrdered ((processChunk cfg transform compile ioFail c fs).2 ++ _)
    exact delOrdered_append
      (processChunk_delOrdered cfg transform compile ioFail c fs) (ih _)

/-- Claim C5: in every pipeline execution, a Cleanup deletion of a chunk's
original source bundle file occurs in the event trace only strictly after the
successful write of that same chunk's loader shim and bytecode artifact. -/
theorem deletion_after_shim_write (cfg : BytecodeConfig)
    (configOk hostOk : Bool) (transform : String → String)
    (compile : String → Option String) (ioFail : String → Bool)
    (chunks : List Chunk) (fs : FS) (id : String) (i : Nat)
    (hdel : (runPipeline cfg configOk hostOk transform compile ioFail chunks
        fs).events[i]? = some (Event.deletedSource id)) :
    (∃ j, j < i ∧ (runPipeline cfg configOk hostOk transform compile ioFail
        chunks fs).events[j]? = some (Event.wroteShim id))
    ∧ (∃ k, k < i ∧ (runPipeline cfg configOk hostOk transform compile ioFail
        chunks fs).events[k]? = some (Event.wroteArtifact id)) := by
  have hall : delOrdered (runPipeline cfg configOk hostOk transform compile
      ioFail chunks fs).events := by
    cases configOk with
    | false =>
      intro i id hi
      simp [runPipeline] at hi
    | true =>
      cases hostOk with
      | false =>
        intro i id hi
        simp [runPipeline] at hi
      | true =>
        rw [runPipeline_ok]
        exact runChunks_delOrdered cfg transform compile ioFail chunks fs
  exact hall id i hdel

/-- Witness for C5: a successful run over the single eligible chunk `"foo"`
with removal enabled produces the trace artifact-write, shim-write,
source-deletion; the deletion at index 2 is preceded by the shim write at
index 1 and the artifact write at index 0. -/
theorem deletion_after_shim_write_witness :
    (∃ j, j < 2 ∧ (runPipeline ⟨["foo"], false, true⟩ true true (fun s => s)
        (fun _ => some "B") (fun _ => false) [⟨"foo", "S"⟩]
        (fun _ => none)).events[j]? = some (Event.wroteShim "foo"))
    ∧ (∃ k, k < 2 ∧ (runPipeline ⟨["foo"], false, true⟩ true true (fun s => s)
        (fun _ => some "B") (fun _ => false) [⟨"foo", "S"⟩]
        (fun _ => none)).events[k]? = some (Event.wroteArtifact "foo")) :=
  deletion_after_shim_write ⟨["foo"], false, true⟩ true true (fun s => s)
    (fun _ => some "B") (fun _ => false) [⟨"foo", "S"⟩] (fun _ => none)
    "foo" 2 (by decide)

/-- The documented concrete scenario: alias `"foo"` with chunks named
`index`, `foo` and `bar`. -/
def scenarioChunks : List Chunk := [⟨"index", "SI"⟩, ⟨"foo", "SF"⟩, ⟨"bar", "SB"⟩]

/-- Initial file system of the concrete scenario: each chunk's plain-source
bundle file is on disk and nothing else is. -/
def scenarioFS : FS := fun p =>
  if p = DiskPath.src "index" then some "SI"
  else if p = DiskPath.src "foo" then some "SF"
  else if p = DiskPath.src "bar" then some "SB"
  else none

/-- The concrete scenario run: alias `"foo"`, default options otherwise, a
host that compiles every source successfully, no write failures. -/
def scenarioRun : RunResult :=
  runPipeline ⟨["foo"], false, true⟩ true true (fun s => s)
    (fun s => some (String.append "BC:" s)) (fun _ => false)
    scenarioChunks scenarioFS

/-- Claim C7: with alias `"foo"` and chunks `["index", "foo", "bar"]`,
exactly the chunk `"foo"` is eligible; after the successful run an artifact
file and a shim file named for `"foo"` exist, while every file of `"index"`
and `"bar"` is exactly as before the run (their sources intact, no artifact
and no shim for them). -/
theorem scenario_only_foo_compiled :
    bundleScanner ["foo"] scenarioChunks = [⟨"foo", "SF"⟩]
    ∧ scenarioRun.fs (DiskPath.art "foo") = some (String.append "BC:" "SF")
    ∧ scenarioRun.fs (DiskPath.shim "foo") = some (loaderCode "foo")
    ∧ scenarioRun.fs (DiskPath.src "index") = some "SI"
    ∧ scenarioRun.fs (DiskPath.art "index") = none
    ∧ scenarioRun.fs (DiskPath.shim "index") = none
    ∧ scenarioRun.fs (DiskPath.src "bar") = some "SB"
    ∧ scenarioRun.fs (DiskPath.art "bar") = none
    ∧ scenarioRun.fs (DiskPath.shim "bar") = none := by
  decide

/-- Modelled from the spec: the target runtime engine (§6 runtime
collaborator), with an abstract type `X` of externally observable module
exports.  `runSource` executes plain source text, `compileCache` serializes
source into engine-build-specific cache data (the bytecode artifact), and
`execCached` executes such cache data.  The field `cache_faithful` is the
documented external guarantee of the engine: cache data it produced, executed
by the very same engine build, behaves as the original source (§3
BytecodeArtifact invariant). -/
structure Engine (X : Type) where
  runSource : String → X
  compileCache : String → String
  execCached : String → X
  cache_faithful : ∀ s, execCached (compileCache s) = runSource s

/-- Modelled from the spec: a loader shim (§4.4) carries the module
identifier of the chunk it replaces and the location of that chunk's
bytecode artifact. -/
structure LoaderShim where
  moduleId : String
  artifactAt : DiskPath

/-- Modelled from the spec: the Loader Generator (§4.4) — the shim for a
chunk keeps the chunk's own identifier and points at the chunk's artifact
file. -/
def loaderGenerator (c : Chunk) : LoaderShim :=
  ⟨c.id, DiskPath.art c.id⟩

/-- Modelled from the spec: executing a loader shim — read the artifact file
and execute it through the engine's serialized-script-execution facility,
forwarding the exports transparently (`none` when the artifact file is
missing). -/
def execShim {X : Type} (e : Engine X) (fs : FS) (sh : LoaderShim) : Option X :=
  (fs sh.artifactAt).map e.execCached

/-- Claim C8: for a compiled chunk whose valid bytecode artifact (the cache
data the engine produced from the chunk's source) is on disk, executing the
generated loader shim yields exactly the module exports of executing the
original source directly, and the shim carries the same module identifier as
the chunk it replaces. -/
theorem shim_execution_equivalent {X : Type} (e : Engine X) (fs : FS)
    (c : Chunk)
    (hart : fs (DiskPath.art c.id) = some (e.compileCache c.source)) :
    execShim e fs (loaderGenerator c) = some (e.runSource c.source)
    ∧ (loaderGenerator c).moduleId = c.id := by
  constructor
  · simp [execShim, loaderGenerator, hart, e.cache_faithful]
  · rfl

/-- A concrete engine for the C8 witness: exports are character counts,
cache data is the source text itself. -/
def countEngine : Engine Nat :=
  ⟨fun s => s.length, fun s => s, fun s => s.length, fun _ => rfl⟩

/-- Witness for C8: a chunk `"m"` whose artifact produced by `countEngine`
is on disk; the shim evaluates to the exports of the original source. -/
theorem shim_execution_equivalent_witness :
    execShim countEngine
        (fun p => if p = DiskPath.art "m" then some "abc" else none)
        (loaderGenerator ⟨"m", "abc"⟩)
      = some (countEngine.runSource "abc")
    ∧ (loaderGenerator ⟨"m", "abc"⟩).moduleId = "m" :=
  shim_execution_equivalent countEngine
    (fun p => if p = DiskPath.art "m" then some "abc" else none)
    ⟨"m", "abc"⟩ (by simp [countEngine])

/-- A text/link pair as used by sidebar items and drop-down menu items in
`config.ts`. -/
structure LinkItem where
  text : String
  link : String
deriving DecidableEq

/-- A sidebar group of `config.ts`: a heading with its items. -/
structure SidebarGroup where
  text : String
  items : List LinkItem
deriving DecidableEq

/-- A navigation entry of `config.ts`: either a direct link with an optional
`activeMatch` pattern, or a drop-down menu of links. -/
inductive NavItem where
  | link (text : String) (link : String) (activeMatch : Option String)
  | menu (text : String) (items : List LinkItem)
deriving DecidableEq

/-- The `themeConfig.algolia` search options of `config.ts`. -/
structure AlgoliaOptions where
  appId : String
  apiKey : String
  indexName : String
deriving DecidableEq

/-- A `themeConfig.socialLinks` entry of `config.ts`. -/
structure SocialLink where
  icon : String
  link : String
deriving DecidableEq

/-- The `themeConfig.localeLinks` value of `config.ts`. -/
structure LocaleLinks where
  text : String
  items : List LinkItem
deriving DecidableEq

/-- The `themeConfig.footer` value of `config.ts`. -/
structure Footer where
  message : String
  copyright : String
deriving DecidableEq

/-- The `themeConfig` object of `config.ts`. -/
structure ThemeConfig where
  algolia : AlgoliaOptions
  socialLinks : List SocialLink
  localeLinks : LocaleLinks
  logo : String
  footer : Footer
  nav : List NavItem
  sidebar : List SidebarGroup
deriving DecidableEq

/-- The whole VitePress configuration object passed to `defineConfig` in
`config.ts` (the `head` entry is a list of tag names with attribute
pairs). -/
structure SiteConfig where
  lang : String
  title : String
  description : String
  head : List (String × List (String × String))
  srcDir : String
  lastUpdated : Bool
  themeConfig : ThemeConfig
deriving DecidableEq

/-- The `sidebar` constant of `config.ts` (its single key is the root path
`/`; embedded here as that key's list of groups). -/
def sidebar : List SidebarGroup :=
  [⟨"Guide",
    [⟨"Introduction", "/guide/introduction"⟩,
      ⟨"Getting Started", "/guide/"⟩,
      ⟨"Features", "/guide/features"⟩,
      ⟨"CLI", "/guide/cli"⟩,
      ⟨"Project Structure", "/guide/project-structure"⟩,
      ⟨"Use HMR in Renderer", "/guide/hmr-in-renderer"⟩,
      ⟨"Hot Reloading", "/guide/hot-reloading"⟩,
      ⟨"Building for Production", "/guide/build"⟩,
      ⟨"Env Variables and Modes", "/guide/env-and-mode"⟩,
      ⟨"Multiple Windows", "/guide/mutli-windows"⟩,
      ⟨"Debugging in VSCode", "/guide/debugging"⟩]⟩,
    ⟨"Config", [⟨"Config Reference", "/config/"⟩]⟩,
    ⟨"API", [⟨"API Reference", "/api/"⟩]⟩]

/-- The `activeMatch` pattern of the `Guide` navigation entry in
`config.ts`. -/
def guideActiveMatch : String := "^/guide|api|about/"

/-- The `nav` constant of `config.ts`. -/
def nav : List NavItem :=
  [NavItem.link "Guide" "/guide/" (some guideActiveMatch),
    NavItem.link "Config" "/config/" (some "^/config/"),
    NavItem.menu "Links"
      [⟨"Vite", "https://vitejs.dev/"⟩,
        ⟨"create-electron",
          "https://github.com/alex8088/quick-start/tree/master/packages/create-electron"⟩],
    NavItem.menu "v1.0.7"
      [⟨"Changelog",
        "https://github.com/alex8088/electron-vite/blob/master/CHANGELOG.md"⟩]]

/-- The configuration object `config.ts` builds and exports as its default
export: a closed constant — it takes no input and always evaluates to this
one value. -/
def siteConfig : SiteConfig :=
  ⟨"en-US", "electron-vite",
    "Next generation Electron build tooling based on Vite.",
    [("link", [("rel", "icon"), ("href", "/favicon.svg"),
      ("type", "image/svg+xml")])],
    "docs", true,
    ⟨⟨"", "", ""⟩,
      [⟨"github", "https://github.com/alex8088/electron-vite"⟩],
      ⟨"English", [⟨"简体中文", "https://cn-evite.netlify.app/"⟩]⟩,
      "/favicon.svg",
      ⟨"Released under the MIT License",
        "Copyright © 2022-present Alex Wei & Powered by Vite"⟩,
      nav, sidebar⟩⟩

/-- Claim C10: the exported configuration is the closed constant
`siteConfig`, and its Algolia search fields `appId`, `apiKey` and
`indexName` are all the empty string — search is declared but
unconfigured. -/
theorem algolia_declared_but_unconfigured :
    siteConfig.themeConfig.algolia.appId = ""
    ∧ siteConfig.themeConfig.algolia.apiKey = ""
    ∧ siteConfig.themeConfig.algolia.indexName = ""
    ∧ siteConfig.themeConfig.algolia = AlgoliaOptions.mk "" "" "" :=
  ⟨rfl, rfl, rfl, rfl⟩

/-- Split a character list at every occurrence of a separator character
(the pieces between separators, like splitting a pattern at each `|`). -/
def splitOnChar (sep : Char) : List Char → List (List Char)
  | [] => [[]]
  | c :: rest =>
    let r := splitOnChar sep rest
    if c = sep then [] :: r
    else
      match r with
      | [] => [[c]]
      | y :: ys => (c :: y) :: ys

/-- Semantics of JavaScript `new RegExp(pat).test(s)` for the fragment of
patterns the configuration uses: an alternation of literal strings, each
optionally anchored at its start with a caret.  The whole pattern matches if
some alternative matches; an unanchored literal alternative matches anywhere
inside `s`, while a caret anchors only its own alternative to the start of
`s`. -/
def jsRegexTest (pat s : String) : Bool :=
  (splitOnChar '|' pat.toList).any fun alt =>
    match alt with
    | '^' :: lit => lit.isPrefixOf s.toList
    | _ => hasInfix alt s.toList

/-- Claim C9: the `Guide` nav item's `activeMatch` pattern
`^/guide|api|about/` parses as three alternatives with the caret applying
only to the first, so it matches every path containing `api` anywhere or
`about/` anywhere; in particular it matches `/config/api-reference`, which
begins with none of `/guide`, `/api`, `/about/` — the pattern is not
restricted to paths beginning with those segments. -/
theorem guide_activeMatch_overmatches (s : String)
    (h : strIncludes s "api" = true ∨ strIncludes s "about/" = true) :
    jsRegexTest guideActiveMatch s = true
    ∧ NavItem.link "Guide" "/guide/" (some guideActiveMatch) ∈ nav
    ∧ jsRegexTest guideActiveMatch "/config/api-reference" = true
    ∧ List.isPrefixOf "/guide".toList "/config/api-reference".toList = false
    ∧ List.isPrefixOf "/api".toList "/config/api-reference".toList = false
    ∧ List.isPrefixOf "/about/".toList "/config/api-reference".toList
        = false := by
  refine ⟨?_, by decide, by decide, by decide, by decide, by decide⟩
  have hsplit : splitOnChar '|' guideActiveMatch.toList
      = [['^', '/', 'g', 'u', 'i', 'd', 'e'], ['a', 'p', 'i'],
          ['a', 'b', 'o', 'u', 't', '/']] := by decide
  unfold jsRegexTest
  rw [hsplit]
  simp only [List.any_cons, List.any_nil, Bool.or_eq_true, Bool.or_false]
  rcases h with h | h
  · refine Or.inr (Or.inl ?_)
    exact h
  · refine Or.inr (Or.inr ?_)
    exact h

/-- Witness for C9 at the path `/config/api-reference`, which contains
`api` but does not begin with `/guide`, `/api` or `/about/`. -/
theorem guide_activeMatch_overmatches_witness :
    jsRegexTest guideActiveMatch "/config/api-reference" = true
    ∧ NavItem.link "Guide" "/guide/" (some guideActiveMatch) ∈ nav
    ∧ jsRegexTest guideActiveMatch "/config/api-reference" = true
    ∧ List.isPrefixOf "/guide".toList "/config/api-reference".toList = false
    ∧ List.isPrefixOf "/api".toList "/config/api-reference".toList = false
    ∧ List.isPrefixOf "/about/".toList "/config/api-reference".toList
        = false :=
  guide_activeMatch_overmatches "/config/api-reference" (Or.inl (by decide))
